import Mathlib

/-!
Verification of the signal pipeline of a 2-hour chart-pattern scanner
(`src/main.py`): pattern detection (`detect_patterns`), ranking and
selection (`collect_top_patterns`), silence-based deduplication
(`should_post` over the `last_signals` map), and the per-cycle
notification dispatch (`run_once_and_report`).

Prices are modelled as rationals (`ℚ`).  Partial Python operations
(indexing, `max`/`min` of a possibly-empty sequence, division whose
divisor may be zero) are modelled in `Option`: a `none` result stands
for a Python runtime exception (IndexError, ValueError on empty
`max`/`min`, ZeroDivisionError).  Python's negative-index semantics are
reproduced by `pyGet`.
-/

/-- Direction of a signal: the first component of the tuples appended by
`detect_patterns`. -/
inductive Direction where
  | bullish
  | bearish
deriving DecidableEq

/-- A raw signal `(direction, score, label)` as produced by `detect_patterns`. -/
abbrev Signal := Direction × ℚ × String

/-- One OHLC candle.  `detect_patterns` reads only `high`, `low`, `close`;
the open price is carried for completeness of the data model. -/
structure Candle where
  op : ℚ
  high : ℚ
  low : ℚ
  close : ℚ
deriving DecidableEq

/-- Python list indexing `l[i]`, including negative-index wrap-around:
`l[-k]` is `l[len l - k]` when `1 ≤ k ≤ len l`; out-of-range indices give
`none` (IndexError). -/
def pyGet (l : List ℚ) (i : Int) : Option ℚ :=
  if 0 ≤ i then l[i.toNat]?
  else if (-i).toNat ≤ l.length then l[l.length - (-i).toNat]? else none

/-- Python `max(l)` on a list of numbers: `none` on the empty list
(ValueError), otherwise the greatest element. -/
def pyMax (l : List ℚ) : Option ℚ :=
  match l with
  | [] => none
  | x :: xs => some (xs.foldl max x)

/-- Python `min(l)` on a list of numbers: `none` on the empty list. -/
def pyMin (l : List ℚ) : Option ℚ :=
  match l with
  | [] => none
  | x :: xs => some (xs.foldl min x)

/-- Total version of `max` over a list, defaulting to `0` on `[]`;
agrees with `pyMax` on nonempty lists. -/
def listMax (l : List ℚ) : ℚ :=
  match l with
  | [] => 0
  | x :: xs => xs.foldl max x

/-- Total version of `min` over a list, defaulting to `0` on `[]`. -/
def listMin (l : List ℚ) : ℚ :=
  match l with
  | [] => 0
  | x :: xs => xs.foldl min x

/-- Python `sum(l)` (left fold from `0`). -/
def listSum (l : List ℚ) : ℚ := l.foldl (· + ·) 0

/-- The two `Double Top` / `Double Bottom` checks of `detect_patterns`
(lines 115-118 of `src/main.py`), given the last close and the extrema of
highs and lows. -/
def doubleTopBottom (short : String) (cL mH mL : ℚ) : List Signal :=
  (if cL < mH * (97/100) then [(Direction.bearish, 3/4, short ++ ": Double Top")] else []) ++
  (if cL > mL * (103/100) then [(Direction.bullish, 3/4, short ++ ": Double Bottom")] else [])

/-- The `Head & Shoulders` check (lines 121-123): `highs[mid] > highs[mid-2]
and highs[mid] > highs[mid+2]`.  The second conjunct is evaluated only when
the first holds (Python `and` short-circuits), so `highs[mid+2]` is read
only then. -/
def headShoulders (short : String) (highs : List ℚ) (mid : Int) (hm hm2 : ℚ) :
    Option (List Signal) :=
  if hm > hm2 then
    match pyGet highs (mid + 2) with
    | some hp2 =>
        some (if hm > hp2 then [(Direction.bearish, 17/20, short ++ ": Head & Shoulders")] else [])
    | none => none
  else some []

/-- The `Cup & Handle` check (line 126): `closes[-1] > sum(closes)/len(closes)
and closes[-1] > max(closes[:-20])`; `max(closes[:-20])` is evaluated only
when the first conjunct holds and errors when the slice is empty. -/
def cupHandle (short : String) (closes : List ℚ) (cL : ℚ) : Option (List Signal) :=
  if cL > listSum closes / (closes.length : ℚ) then
    match pyMax (closes.take (closes.length - 20)) with
    | some mC =>
        some (if cL > mC then [(Direction.bullish, 4/5, short ++ ": Cup & Handle")] else [])
    | none => none
  else some []

/-- The two wedge checks (lines 130-133) on the last two highs and lows. -/
def wedgeSignals (short : String) (h1 h2 l1 l2 : ℚ) : List Signal :=
  (if h1 < h2 ∧ l1 > l2 then [(Direction.bullish, 7/10, short ++ ": Falling Wedge")] else []) ++
  (if h1 > h2 ∧ l1 < l2 then [(Direction.bearish, 7/10, short ++ ": Rising Wedge")] else [])

/-- The flag check (lines 136-141): on `recent = closes[-10:]`, if
`max(recent)/min(recent) < 1.02` then exactly one of Bull Flag / Bear Flag is
emitted, depending on `closes[-1] > sum(closes[:-10])/(len(closes)-10)`.
`min(recent) = 0` and `len(closes) = 10` are ZeroDivisionErrors (`none`). -/
def flagSignals (short : String) (closes : List ℚ) (cL : ℚ) : Option (List Signal) :=
  match pyMax (closes.drop (closes.length - 10)), pyMin (closes.drop (closes.length - 10)) with
  | some mxR, some mnR =>
    if mnR = 0 then none
    else if mxR / mnR < 51/50 then
      if (closes.length : Int) - 10 = 0 then none
      else
        some (if cL > listSum (closes.take (closes.length - 10)) / (((closes.length : Int) - 10 : Int) : ℚ)
              then [(Direction.bullish, 13/20, short ++ ": Bull Flag")]
              else [(Direction.bearish, 13/20, short ++ ": Bear Flag")])
    else some []
  | _, _ => none

/-- Shallow embedding of `detect_patterns(candles, short)` (lines 107-143 of
`src/main.py`).  `none` models a Python runtime error; `some rs` is the
returned list of `(direction, score, label)` tuples, in the order the source
appends them. -/
def detect_patterns (candles : List Candle) (short : String) : Option (List Signal) :=
  let closes := candles.map Candle.close
  let highs := candles.map Candle.high
  let lows := candles.map Candle.low
  (pyGet closes (-1)).bind fun cL =>
  (pyMax highs).bind fun mH =>
  (pyMin lows).bind fun mL =>
  let r12 := doubleTopBottom short cL mH mL
  let mid : Nat := closes.length / 2
  (pyGet highs (mid : Int)).bind fun hm =>
  (pyGet highs ((mid : Int) - 2)).bind fun hm2 =>
  (headShoulders short highs (mid : Int) hm hm2).bind fun r3 =>
  (cupHandle short closes cL).bind fun r4 =>
  (pyGet highs (-1)).bind fun h1 =>
  (pyGet highs (-2)).bind fun h2 =>
  (pyGet lows (-1)).bind fun l1 =>
  (pyGet lows (-2)).bind fun l2 =>
  let r56 := wedgeSignals short h1 h2 l1 l2
  (flagSignals short closes cL).map fun r7 =>
  r12 ++ r3 ++ r4 ++ r56 ++ r7

/-- Detector table of §4.1 of the specification, written from the spec's
words: on closes `c`, highs `h`, lows `l` of common length `L` with
`mid = L / 2`, each row fires independently and appends its
`(direction, score, "<short>: <name>")` in the table's fixed order; the
final row emits Bull Flag or Bear Flag when the last ten closes are in
tight consolidation.  Total: meaningful under the spec's length
precondition. -/
def detect_patterns_spec (candles : List Candle) (short : String) : List Signal :=
  let c := candles.map Candle.close
  let h := candles.map Candle.high
  let l := candles.map Candle.low
  let L := c.length
  let mid := L / 2
  (if c.getD (L-1) 0 < listMax h * (97/100) then
      [(Direction.bearish, 3/4, short ++ ": Double Top")] else []) ++
  (if c.getD (L-1) 0 > listMin l * (103/100) then
      [(Direction.bullish, 3/4, short ++ ": Double Bottom")] else []) ++
  (if h.getD mid 0 > h.getD (mid-2) 0 ∧ h.getD mid 0 > h.getD (mid+2) 0 then
      [(Direction.bearish, 17/20, short ++ ": Head & Shoulders")] else []) ++
  (if c.getD (L-1) 0 > listSum c / (L : ℚ) ∧ c.getD (L-1) 0 > listMax (c.take (L-20)) then
      [(Direction.bullish, 4/5, short ++ ": Cup & Handle")] else []) ++
  (if h.getD (L-1) 0 < h.getD (L-2) 0 ∧ l.getD (L-1) 0 > l.getD (L-2) 0 then
      [(Direction.bullish, 7/10, short ++ ": Falling Wedge")] else []) ++
  (if h.getD (L-1) 0 > h.getD (L-2) 0 ∧ l.getD (L-1) 0 < l.getD (L-2) 0 then
      [(Direction.bearish, 7/10, short ++ ": Rising Wedge")] else []) ++
  (if listMax (c.drop (L-10)) / listMin (c.drop (L-10)) < 51/50 then
      (if c.getD (L-1) 0 > listSum (c.take (L-10)) / ((L : ℚ) - 10)
       then [(Direction.bullish, 13/20, short ++ ": Bull Flag")]
       else [(Direction.bearish, 13/20, short ++ ": Bear Flag")])
   else [])

/-- Indexing with a nonnegative in-bounds Python index. -/
lemma pyGet_nat (l : List ℚ) (n : Nat) (h : n < l.length) :
    pyGet l (n : Int) = some (l.getD n 0) := by
  simp [pyGet, List.getElem?_eq_getElem h, List.getD_eq_getElem l 0 h]

/-- Python index `-1` reads the last element. -/
lemma pyGet_neg_one (l : List ℚ) (h : 1 ≤ l.length) :
    pyGet l (-1) = some (l.getD (l.length - 1) 0) := by
  have hlt : l.length - 1 < l.length := by omega
  simp [pyGet, h, List.getElem?_eq_getElem hlt, List.getD_eq_getElem l 0 hlt]

/-- Python index `-2` reads the second-to-last element. -/
lemma pyGet_neg_two (l : List ℚ) (h : 2 ≤ l.length) :
    pyGet l (-2) = some (l.getD (l.length - 2) 0) := by
  have hlt : l.length - 2 < l.length := by omega
  simp [pyGet, h, List.getElem?_eq_getElem hlt, List.getD_eq_getElem l 0 hlt]

/-- On a nonempty list, `pyMax` is the total `listMax`. -/
lemma pyMax_of_ne_nil (l : List ℚ) (h : l ≠ []) : pyMax l = some (listMax l) := by
  cases l with
  | nil => exact absurd rfl h
  | cons x xs => rfl

/-- On a nonempty list, `pyMin` is the total `listMin`. -/
lemma pyMin_of_ne_nil (l : List ℚ) (h : l ≠ []) : pyMin l = some (listMin l) := by
  cases l with
  | nil => exact absurd rfl h
  | cons x xs => rfl

/-- Once the conditionally-read index is known to be in bounds, the
Head & Shoulders check is the conjunction of its two comparisons. -/
lemma headShoulders_eval (short : String) (H : List ℚ) (mid : Int) (hm hm2 hp2 : ℚ)
    (h : pyGet H (mid + 2) = some hp2) :
    headShoulders short H mid hm hm2 =
      some (if hm > hm2 ∧ hm > hp2 then
        [(Direction.bearish, 17/20, short ++ ": Head & Shoulders")] else []) := by
  by_cases h1 : hm > hm2
  · by_cases h2 : hm > hp2 <;> simp [headShoulders, h, h1, h2]
  · simp [headShoulders, h1]

/-- Once the slice maximum is defined, the Cup & Handle check is the
conjunction of its two comparisons. -/
lemma cupHandle_eval (short : String) (closes : List ℚ) (cL mC : ℚ)
    (h : pyMax (closes.take (closes.length - 20)) = some mC) :
    cupHandle short closes cL =
      some (if cL > listSum closes / (closes.length : ℚ) ∧ cL > mC then
        [(Direction.bullish, 4/5, short ++ ": Cup & Handle")] else []) := by
  by_cases h1 : cL > listSum closes / (closes.length : ℚ)
  · by_cases h2 : cL > mC <;> simp [cupHandle, h, h1, h2]
  · simp [cupHandle, h1]

/-- The flag check succeeds when the last-ten closes are nonempty with a
nonzero minimum and there are not exactly ten closes. -/
lemma flagSignals_eval (short : String) (closes : List ℚ) (cL mxR mnR : ℚ)
    (hmx : pyMax (closes.drop (closes.length - 10)) = some mxR)
    (hmn : pyMin (closes.drop (closes.length - 10)) = some mnR)
    (h0 : mnR ≠ 0) (h10 : (closes.length : Int) - 10 ≠ 0) :
    flagSignals short closes cL =
      some (if mxR / mnR < 51/50 then
        (if cL > listSum (closes.take (closes.length - 10)) / (((closes.length : Int) - 10 : Int) : ℚ)
         then [(Direction.bullish, 13/20, short ++ ": Bull Flag")]
         else [(Direction.bearish, 13/20, short ++ ": Bear Flag")])
       else []) := by
  by_cases h1 : mxR / mnR < 51/50
  · simp [flagSignals, hmx, hmn, h0, h10, h1]
  · simp [flagSignals, hmx, hmn, h0, h10, h1]

/-- Helper: under the length precondition the conditionally-evaluated
short-circuit reads of `detect_patterns` are in bounds, and the function
returns exactly the spec's detector table.  The minimum of the last ten
closes must be nonzero, else the flag detector's ratio divides by zero. -/
lemma detect_patterns_eq_spec (candles : List Candle) (short : String)
    (hL : 21 ≤ candles.length)
    (hmn : listMin ((candles.map Candle.close).drop ((candles.map Candle.close).length - 10)) ≠ 0) :
    detect_patterns candles short = some (detect_patterns_spec candles short) := by
  have hcl : (candles.map Candle.close).length = candles.length := List.length_map _ _
  have hhl : (candles.map Candle.high).length = candles.length := List.length_map _ _
  have hll : (candles.map Candle.low).length = candles.length := List.length_map _ _
  have e1 : pyGet (candles.map Candle.close) (-1) =
      some ((candles.map Candle.close).getD ((candles.map Candle.close).length - 1) 0) :=
    pyGet_neg_one _ (by omega)
  have e2 : pyMax (candles.map Candle.high) = some (listMax (candles.map Candle.high)) :=
    pyMax_of_ne_nil _ (by intro h; rw [h] at hhl; simp at hhl; omega)
  have e3 : pyMin (candles.map Candle.low) = some (listMin (candles.map Candle.low)) :=
    pyMin_of_ne_nil _ (by intro h; rw [h] at hll; simp at hll; omega)
  have hmidlt : (candles.map Candle.close).length / 2 < (candles.map Candle.high).length := by omega
  have e4 : pyGet (candles.map Candle.high) (((candles.map Candle.close).length / 2 : Nat) : Int) =
      some ((candles.map Candle.high).getD ((candles.map Candle.close).length / 2) 0) :=
    pyGet_nat _ _ hmidlt
  have ecast5 : (((candles.map Candle.close).length / 2 : Nat) : Int) - 2 =
      (((candles.map Candle.close).length / 2 - 2 : Nat) : Int) := by omega
  have e5 : pyGet (candles.map Candle.high) ((((candles.map Candle.close).length / 2 : Nat) : Int) - 2) =
      some ((candles.map Candle.high).getD ((candles.map Candle.close).length / 2 - 2) 0) := by
    rw [ecast5]; exact pyGet_nat _ _ (by omega)
  have ecast6 : (((candles.map Candle.close).length / 2 : Nat) : Int) + 2 =
      (((candles.map Candle.close).length / 2 + 2 : Nat) : Int) := by omega
  have e6 : pyGet (candles.map Candle.high) ((((candles.map Candle.close).length / 2 : Nat) : Int) + 2) =
      some ((candles.map Candle.high).getD ((candles.map Candle.close).length / 2 + 2) 0) := by
    rw [ecast6]; exact pyGet_nat _ _ (by omega)
  have e7 : headShoulders short (candles.map Candle.high)
      (((candles.map Candle.close).length / 2 : Nat) : Int)
      ((candles.map Candle.high).getD ((candles.map Candle.close).length / 2) 0)
      ((candles.map Candle.high).getD ((candles.map Candle.close).length / 2 - 2) 0) =
      some (if (candles.map Candle.high).getD ((candles.map Candle.close).length / 2) 0 >
              (candles.map Candle.high).getD ((candles.map Candle.close).length / 2 - 2) 0 ∧
            (candles.map Candle.high).getD ((candles.map Candle.close).length / 2) 0 >
              (candles.map Candle.high).getD ((candles.map Candle.close).length / 2 + 2) 0 then
        [(Direction.bearish, 17/20, short ++ ": Head & Shoulders")] else []) :=
    headShoulders_eval _ _ _ _ _ _ e6
  have htk : ((candles.map Candle.close).take ((candles.map Candle.close).length - 20)) ≠ [] := by
    intro h
    have := congrArg List.length h
    rw [List.length_take] at this
    simp at this
    omega
  have e8 : pyMax ((candles.map Candle.close).take ((candles.map Candle.close).length - 20)) =
      some (listMax ((candles.map Candle.close).take ((candles.map Candle.close).length - 20))) :=
    pyMax_of_ne_nil _ htk
  have e9 : cupHandle short (candles.map Candle.close)
      ((candles.map Candle.close).getD ((candles.map Candle.close).length - 1) 0) =
      some (if ((candles.map Candle.close).getD ((candles.map Candle.close).length - 1) 0 >
               listSum (candles.map Candle.close) / ((candles.map Candle.close).length : ℚ)) ∧
            ((candles.map Candle.close).getD ((candles.map Candle.close).length - 1) 0 >
               listMax ((candles.map Candle.close).take ((candles.map Candle.close).length - 20))) then
        [(Direction.bullish, 4/5, short ++ ": Cup & Handle")] else []) :=
    cupHandle_eval _ _ _ _ e8
  have e10 : pyGet (candles.map Candle.high) (-1) =
      some ((candles.map Candle.high).getD ((candles.map Candle.close).length - 1) 0) := by
    rw [pyGet_neg_one _ (by omega), hhl, hcl]
  have e11 : pyGet (candles.map Candle.high) (-2) =
      some ((candles.map Candle.high).getD ((candles.map Candle.close).length - 2) 0) := by
    rw [pyGet_neg_two _ (by omega), hhl, hcl]
  have e12 : pyGet (candles.map Candle.low) (-1) =
      some ((candles.map Candle.low).getD ((candles.map Candle.close).length - 1) 0) := by
    rw [pyGet_neg_one _ (by omega), hll, hcl]
  have e13 : pyGet (candles.map Candle.low) (-2) =
      some ((candles.map Candle.low).getD ((candles.map Candle.close).length - 2) 0) := by
    rw [pyGet_neg_two _ (by omega), hll, hcl]
  have hdr : ((candles.map Candle.close).drop ((candles.map Candle.close).length - 10)) ≠ [] := by
    intro h
    have := congrArg List.length h
    rw [List.length_drop] at this
    simp at this
    omega
  have e14 : pyMax ((candles.map Candle.close).drop ((candles.map Candle.close).length - 10)) =
      some (listMax ((candles.map Candle.close).drop ((candles.map Candle.close).length - 10))) :=
    pyMax_of_ne_nil _ hdr
  have e15 : pyMin ((candles.map Candle.close).drop ((candles.map Candle.close).length - 10)) =
      some (listMin ((candles.map Candle.close).drop ((candles.map Candle.close).length - 10))) :=
    pyMin_of_ne_nil _ hdr
  have e16 : flagSignals short (candles.map Candle.close)
      ((candles.map Candle.close).getD ((candles.map Candle.close).length - 1) 0) =
      some (if listMax ((candles.map Candle.close).drop ((candles.map Candle.close).length - 10)) /
               listMin ((candles.map Candle.close).drop ((candles.map Candle.close).length - 10)) < 51/50 then
        (if (candles.map Candle.close).getD ((candles.map Candle.close).length - 1) 0 >
              listSum ((candles.map Candle.close).take ((candles.map Candle.close).length - 10)) /
                ((((candles.map Candle.close).length : Int) - 10 : Int) : ℚ)
         then [(Direction.bullish, 13/20, short ++ ": Bull Flag")]
         else [(Direction.bearish, 13/20, short ++ ": Bear Flag")])
       else []) :=
    flagSignals_eval _ _ _ _ _ e14 e15 hmn (by omega)
  have hdiv : ((((candles.map Candle.close).length : Int) - 10 : Int) : ℚ) =
      ((candles.map Candle.close).length : ℚ) - 10 := by push_cast; ring
  simp only [detect_patterns, detect_patterns_spec, e1, e2, e3, e4, e5, e7, e9, e10, e11,
    e12, e13, e16, hdiv, Option.some_bind, Option.map_some']
  simp [doubleTopBottom, wedgeSignals, List.append_assoc]

/-- Any successful run of `detect_patterns` decomposes into the seven
detector blocks, in source order. -/
lemma detect_patterns_shape (candles : List Candle) (short : String) (r : List Signal)
    (h : detect_patterns candles short = some r) :
    ∃ cL mH mL hm hm2 r3 r4 h1 h2 l1 l2 r7,
      headShoulders short (candles.map Candle.high)
        (((candles.map Candle.close).length / 2 : Nat) : Int) hm hm2 = some r3 ∧
      cupHandle short (candles.map Candle.close) cL = some r4 ∧
      flagSignals short (candles.map Candle.close) cL = some r7 ∧
      r = doubleTopBottom short cL mH mL ++ r3 ++ r4 ++ wedgeSignals short h1 h2 l1 l2 ++ r7 := by
  simp only [detect_patterns, Option.bind_eq_some, Option.map_eq_some'] at h
  obtain ⟨cL, hcL, mH, hmH, mL, hmL, hm, hhm, hm2, hhm2, r3, hr3, r4, hr4,
    h1, hh1, h2, hh2, l1, hl1, l2, hl2, r7, hr7, hr⟩ := h
  exact ⟨cL, mH, mL, hm, hm2, r3, r4, h1, h2, l1, l2, r7, hr3, hr4, hr7, hr.symm⟩

/-- The Double Top / Double Bottom block contributes at most two signals. -/
lemma doubleTopBottom_length (short : String) (cL mH mL : ℚ) :
    (doubleTopBottom short cL mH mL).length ≤ 2 := by
  unfold doubleTopBottom
  split <;> split <;> simp

/-- Every signal of the Double Top / Double Bottom block has score `0.75`. -/
lemma doubleTopBottom_score (short : String) (cL mH mL : ℚ) (s : Signal)
    (h : s ∈ doubleTopBottom short cL mH mL) : s.2.1 = 3/4 := by
  unfold doubleTopBottom at h
  rcases List.mem_append.mp h with h | h <;> split at h <;> simp_all

/-- A successful Head & Shoulders block is empty or the single H&S signal. -/
lemma headShoulders_some (short : String) (H : List ℚ) (mid : Int) (hm hm2 : ℚ)
    (r : List Signal) (h : headShoulders short H mid hm hm2 = some r) :
    r = [] ∨ r = [(Direction.bearish, 17/20, short ++ ": Head & Shoulders")] := by
  unfold headShoulders at h
  split at h
  · split at h
    · rename_i hp2 _
      injection h with h
      subst h
      split <;> simp
    · exact absurd h (by simp)
  · injection h with h
    subst h
    simp

/-- A successful Cup & Handle block is empty or the single C&H signal. -/
lemma cupHandle_some (short : String) (closes : List ℚ) (cL : ℚ)
    (r : List Signal) (h : cupHandle short closes cL = some r) :
    r = [] ∨ r = [(Direction.bullish, 4/5, short ++ ": Cup & Handle")] := by
  unfold cupHandle at h
  split at h
  · split at h
    · rename_i mC _
      injection h with h
      subst h
      split <;> simp
    · exact absurd h (by simp)
  · injection h with h
    subst h
    simp

/-- The wedge block is empty or a single wedge signal: its two conditions
are mutually exclusive. -/
lemma wedgeSignals_cases (short : String) (h1 h2 l1 l2 : ℚ) :
    wedgeSignals short h1 h2 l1 l2 = [] ∨
    wedgeSignals short h1 h2 l1 l2 = [(Direction.bullish, 7/10, short ++ ": Falling Wedge")] ∨
    wedgeSignals short h1 h2 l1 l2 = [(Direction.bearish, 7/10, short ++ ": Rising Wedge")] := by
  unfold wedgeSignals
  by_cases hA : h1 < h2 ∧ l1 > l2
  · by_cases hB : h1 > h2 ∧ l1 < l2
    · exact absurd hB.1 (lt_asymm hA.1)
    · simp [hA, hB]
  · by_cases hB : h1 > h2 ∧ l1 < l2 <;> simp [hA, hB]

/-- A successful flag block is empty or a single flag signal. -/
lemma flagSignals_some (short : String) (closes : List ℚ) (cL : ℚ)
    (r : List Signal) (h : flagSignals short closes cL = some r) :
    r = [] ∨ r = [(Direction.bullish, 13/20, short ++ ": Bull Flag")] ∨
    r = [(Direction.bearish, 13/20, short ++ ": Bear Flag")] := by
  unfold flagSignals at h
  split at h
  · split at h
    · exact absurd h (by simp)
    · split at h
      · split at h
        · exact absurd h (by simp)
        · injection h with h
          subst h
          split <;> simp
      · injection h with h
        subst h
        simp
  · exact absurd h (by simp)

/-- Signals differing in score are distinct. -/
lemma signal_ne_of_score {a b : Direction} {q1 q2 : ℚ} {s1 s2 : String} (h : q1 ≠ q2) :
    (a, q1, s1) ≠ (b, q2, s2) :=
  fun he => h (congrArg (fun s : Signal => s.2.1) he)

/-- Every wedge-block signal has score `0.70`. -/
lemma wedgeSignals_score (short : String) (h1 h2 l1 l2 : ℚ) (s : Signal)
    (h : s ∈ wedgeSignals short h1 h2 l1 l2) : s.2.1 = 7/10 := by
  rcases wedgeSignals_cases short h1 h2 l1 l2 with hw | hw | hw <;> rw [hw] at h <;> simp_all

/-- C10: no run of `detect_patterns` emits both wedges or both flags; the
output has at most six signals, each with one of the five detector scores. -/
theorem detect_patterns_bounded_and_exclusive (candles : List Candle) (short : String)
    (r : List Signal) (h : detect_patterns candles short = some r) :
    ¬ ((Direction.bullish, 7/10, short ++ ": Falling Wedge") ∈ r ∧
       (Direction.bearish, 7/10, short ++ ": Rising Wedge") ∈ r) ∧
    ¬ ((Direction.bullish, 13/20, short ++ ": Bull Flag") ∈ r ∧
       (Direction.bearish, 13/20, short ++ ": Bear Flag") ∈ r) ∧
    r.length ≤ 6 ∧
    (∀ s ∈ r, s.2.1 ∈ ([13/20, 7/10, 3/4, 4/5, 17/20] : List ℚ)) := by
  obtain ⟨cL, mH, mL, hm, hm2, r3, r4, h1, h2, l1, l2, r7, hr3, hr4, hr7, hr⟩ :=
    detect_patterns_shape candles short r h
  have hd3 := headShoulders_some _ _ _ _ _ _ hr3
  have hd4 := cupHandle_some _ _ _ _ hr4
  have hdW := wedgeSignals_cases short h1 h2 l1 l2
  have hd7 := flagSignals_some _ _ _ _ hr7
  subst hr
  refine ⟨?_, ?_, ?_, ?_⟩
  · rintro ⟨hfw, hrw⟩
    have hfwW : (Direction.bullish, (7:ℚ)/10, short ++ ": Falling Wedge") ∈
        wedgeSignals short h1 h2 l1 l2 := by
      simp only [List.mem_append] at hfw
      rcases hfw with ((((hx | hx) | hx) | hx) | hx)
      · have := doubleTopBottom_score _ _ _ _ _ hx; norm_num at this
      · rcases hd3 with rfl | rfl
        · simp at hx
        · have := congrArg (fun s : Signal => s.2.1) (List.mem_singleton.mp hx)
          norm_num at this
      · rcases hd4 with rfl | rfl
        · simp at hx
        · have := congrArg (fun s : Signal => s.2.1) (List.mem_singleton.mp hx)
          norm_num at this
      · exact hx
      · rcases hd7 with rfl | rfl | rfl
        · simp at hx
        · have := congrArg (fun s : Signal => s.2.1) (List.mem_singleton.mp hx)
          norm_num at this
        · have := congrArg (fun s : Signal => s.2.1) (List.mem_singleton.mp hx)
          norm_num at this
    have hrwW : (Direction.bearish, (7:ℚ)/10, short ++ ": Rising Wedge") ∈
        wedgeSignals short h1 h2 l1 l2 := by
      simp only [List.mem_append] at hrw
      rcases hrw with ((((hx | hx) | hx) | hx) | hx)
      · have := doubleTopBottom_score _ _ _ _ _ hx; norm_num at this
      · rcases hd3 with rfl | rfl
        · simp at hx
        · have := congrArg (fun s : Signal => s.2.1) (List.mem_singleton.mp hx)
          norm_num at this
      · rcases hd4 with rfl | rfl
        · simp at hx
        · have := congrArg (fun s : Signal => s.2.1) (List.mem_singleton.mp hx)
          norm_num at this
      · exact hx
      · rcases hd7 with rfl | rfl | rfl
        · simp at hx
        · have := congrArg (fun s : Signal => s.2.1) (List.mem_singleton.mp hx)
          norm_num at this
        · have := congrArg (fun s : Signal => s.2.1) (List.mem_singleton.mp hx)
          norm_num at this
    rcases hdW with hw | hw | hw <;> rw [hw] at hfwW hrwW
    · simp at hfwW
    · have := congrArg (fun s : Signal => s.1) (List.mem_singleton.mp hrwW)
      exact Direction.noConfusion this
    · have := congrArg (fun s : Signal => s.1) (List.mem_singleton.mp hfwW)
      exact Direction.noConfusion this
  · rintro ⟨hbf, hrf⟩
    have hbf7 : (Direction.bullish, (13:ℚ)/20, short ++ ": Bull Flag") ∈ r7 := by
      simp only [List.mem_append] at hbf
      rcases hbf with ((((hx | hx) | hx) | hx) | hx)
      · have := doubleTopBottom_score _ _ _ _ _ hx; norm_num at this
      · rcases hd3 with rfl | rfl
        · simp at hx
        · have := congrArg (fun s : Signal => s.2.1) (List.mem_singleton.mp hx)
          norm_num at this
      · rcases hd4 with rfl | rfl
        · simp at hx
        · have := congrArg (fun s : Signal => s.2.1) (List.mem_singleton.mp hx)
          norm_num at this
      · have := wedgeSignals_score _ _ _ _ _ _ hx; norm_num at this
      · exact hx
    have hrf7 : (Direction.bearish, (13:ℚ)/20, short ++ ": Bear Flag") ∈ r7 := by
      simp only [List.mem_append] at hrf
      rcases hrf with ((((hx | hx) | hx) | hx) | hx)
      · have := doubleTopBottom_score _ _ _ _ _ hx; norm_num at this
      · rcases hd3 with rfl | rfl
        · simp at hx
        · have := congrArg (fun s : Signal => s.2.1) (List.mem_singleton.mp hx)
          norm_num at this
      · rcases hd4 with rfl | rfl
        · simp at hx
        · have := congrArg (fun s : Signal => s.2.1) (List.mem_singleton.mp hx)
          norm_num at this
      · have := wedgeSignals_score _ _ _ _ _ _ hx; norm_num at this
      · exact hx
    rcases hd7 with rfl | rfl | rfl
    · simp at hbf7
    · have := congrArg (fun s : Signal => s.1) (List.mem_singleton.mp hrf7)
      exact Direction.noConfusion this
    · have := congrArg (fun s : Signal => s.1) (List.mem_singleton.mp hbf7)
      exact Direction.noConfusion this
  · have lA := doubleTopBottom_length short cL mH mL
    have l3 : r3.length ≤ 1 := by rcases hd3 with rfl | rfl <;> simp
    have l4 : r4.length ≤ 1 := by rcases hd4 with rfl | rfl <;> simp
    have lW : (wedgeSignals short h1 h2 l1 l2).length ≤ 1 := by
      rcases hdW with hw | hw | hw <;> rw [hw] <;> simp
    have l7 : r7.length ≤ 1 := by rcases hd7 with rfl | rfl | rfl <;> simp
    simp only [List.length_append]
    omega
  · intro s hs
    simp only [List.mem_append] at hs
    rcases hs with ((((hx | hx) | hx) | hx) | hx)
    · have := doubleTopBottom_score _ _ _ _ _ hx
      rw [this]; simp
    · rcases hd3 with rfl | rfl
      · simp at hx
      · rw [List.mem_singleton.mp hx]; simp
    · rcases hd4 with rfl | rfl
      · simp at hx
      · rw [List.mem_singleton.mp hx]; simp
    · have := wedgeSignals_score _ _ _ _ _ _ hx
      rw [this]; simp
    · rcases hd7 with rfl | rfl | rfl
      · simp at hx
      · rw [List.mem_singleton.mp hx]; simp
      · rw [List.mem_singleton.mp hx]; simp

/-- Reading a `getD` default-`0` entry of a replicated list. -/
lemma getD_replicate (n i : Nat) (a : ℚ) (h : i < n) :
    (List.replicate n a).getD i 0 = a := by
  have hl : i < (List.replicate n a).length := by simpa using h
  rw [List.getD_eq_getElem _ _ hl, List.getElem_replicate]

/-- Folding `max` over copies of the starting value changes nothing. -/
lemma foldl_max_replicate (a : ℚ) (n : Nat) :
    List.foldl max a (List.replicate n a) = a := by
  induction n with
  | zero => rfl
  | succ m ih => simpa [List.replicate_succ] using ih

/-- Folding `min` over copies of the starting value changes nothing. -/
lemma foldl_min_replicate (a : ℚ) (n : Nat) :
    List.foldl min a (List.replicate n a) = a := by
  induction n with
  | zero => rfl
  | succ m ih => simpa [List.replicate_succ] using ih

/-- Maximum of a nonempty replicated list. -/
lemma listMax_replicate (n : Nat) (a : ℚ) (h : n ≠ 0) :
    listMax (List.replicate n a) = a := by
  cases n with
  | zero => exact absurd rfl h
  | succ m => simpa [List.replicate_succ, listMax] using foldl_max_replicate a m

/-- Minimum of a nonempty replicated list. -/
lemma listMin_replicate (n : Nat) (a : ℚ) (h : n ≠ 0) :
    listMin (List.replicate n a) = a := by
  cases n with
  | zero => exact absurd rfl h
  | succ m => simpa [List.replicate_succ, listMin] using foldl_min_replicate a m

/-- Sum of a replicated list. -/
lemma listSum_replicate (n : Nat) (a : ℚ) :
    listSum (List.replicate n a) = (n : ℚ) * a := by
  have key : ∀ (m : Nat) (init : ℚ), List.foldl (· + ·) init (List.replicate m a) = init + m * a := by
    intro m
    induction m with
    | zero => intro init; simp
    | succ k ih =>
        intro init
        rw [List.replicate_succ, List.foldl_cons, ih]
        push_cast
        ring
  simpa [listSum] using key n 0

/-- Spec table on a uniform (all-identical-candles) series: only Double Top,
Double Bottom and Bear Flag can fire. -/
lemma detect_patterns_spec_uniform (n : Nat) (o hi lo cl : ℚ) (short : String)
    (hn : 21 ≤ n) :
    detect_patterns_spec (List.replicate n ⟨o, hi, lo, cl⟩) short =
      (if cl < hi * (97/100) then [(Direction.bearish, 3/4, short ++ ": Double Top")] else []) ++
      (if cl > lo * (103/100) then [(Direction.bullish, 3/4, short ++ ": Double Bottom")] else []) ++
      (if cl / cl < 51/50 then [(Direction.bearish, 13/20, short ++ ": Bear Flag")] else []) := by
  have g1 : (List.replicate n cl).getD (n - 1) 0 = cl := getD_replicate _ _ _ (by omega)
  have g2 : (List.replicate n hi).getD (n / 2) 0 = hi := getD_replicate _ _ _ (by omega)
  have g3 : (List.replicate n hi).getD (n / 2 - 2) 0 = hi := getD_replicate _ _ _ (by omega)
  have g4 : (List.replicate n hi).getD (n / 2 + 2) 0 = hi := getD_replicate _ _ _ (by omega)
  have g5 : (List.replicate n hi).getD (n - 1) 0 = hi := getD_replicate _ _ _ (by omega)
  have g6 : (List.replicate n hi).getD (n - 2) 0 = hi := getD_replicate _ _ _ (by omega)
  have g7 : (List.replicate n lo).getD (n - 1) 0 = lo := getD_replicate _ _ _ (by omega)
  have g8 : (List.replicate n lo).getD (n - 2) 0 = lo := getD_replicate _ _ _ (by omega)
  have hmaxh : listMax (List.replicate n hi) = hi := listMax_replicate _ _ (by omega)
  have hminl : listMin (List.replicate n lo) = lo := listMin_replicate _ _ (by omega)
  have htake20 : (List.replicate n cl).take (n - 20) = List.replicate (n - 20) cl := by
    rw [List.take_replicate]; congr 1; omega
  have hdrop10 : (List.replicate n cl).drop (n - 10) = List.replicate 10 cl := by
    rw [List.drop_replicate]; congr 1; omega
  have htake10 : (List.replicate n cl).take (n - 10) = List.replicate (n - 10) cl := by
    rw [List.take_replicate]; congr 1; omega
  have hmaxr : listMax (List.replicate 10 cl) = cl := listMax_replicate _ _ (by norm_num)
  have hminr : listMin (List.replicate 10 cl) = cl := listMin_replicate _ _ (by norm_num)
  have hsum : listSum (List.replicate n cl) = (n : ℚ) * cl := listSum_replicate _ _
  have hsum10 : listSum (List.replicate (n - 10) cl) = ((n - 10 : Nat) : ℚ) * cl :=
    listSum_replicate _ _
  have hnq : (n : ℚ) ≠ 0 := Nat.cast_ne_zero.mpr (by omega)
  have hmean : (n : ℚ) * cl / (n : ℚ) = cl := by
    rw [mul_comm, mul_div_assoc, div_self hnq, mul_one]
  have hcast : ((n - 10 : Nat) : ℚ) = (n : ℚ) - 10 := by
    rw [Nat.cast_sub (by omega : 10 ≤ n)]; norm_num
  have hn10 : (n : ℚ) - 10 ≠ 0 := by
    have : (21 : ℚ) ≤ (n : ℚ) := by exact_mod_cast hn
    linarith
  have hmean10 : ((n : ℚ) - 10) * cl / ((n : ℚ) - 10) = cl := by
    rw [mul_comm, mul_div_assoc, div_self hn10, mul_one]
  simp only [detect_patterns_spec, List.map_replicate, List.length_replicate,
    g1, g2, g3, g4, g5, g6, g7, g8, hmaxh, hminl, htake20, hdrop10, htake10,
    hmaxr, hminr, hsum, hsum10, hcast, hmean, hmean10]
  simp [lt_irrefl]

/-- On a uniform series with nonzero close, `detect_patterns` succeeds and
returns the Double Top / Double Bottom checks followed by a Bear Flag. -/
lemma detect_patterns_uniform (n : Nat) (o hi lo cl : ℚ) (short : String)
    (hn : 21 ≤ n) (hcl : cl ≠ 0) :
    detect_patterns (List.replicate n ⟨o, hi, lo, cl⟩) short =
      some ((if cl < hi * (97/100) then [(Direction.bearish, 3/4, short ++ ": Double Top")] else []) ++
            (if cl > lo * (103/100) then [(Direction.bullish, 3/4, short ++ ": Double Bottom")] else []) ++
            [(Direction.bearish, 13/20, short ++ ": Bear Flag")]) := by
  have hmn : listMin (((List.replicate n (⟨o, hi, lo, cl⟩ : Candle)).map Candle.close).drop
      (((List.replicate n (⟨o, hi, lo, cl⟩ : Candle)).map Candle.close).length - 10)) ≠ 0 := by
    have hd : ((List.replicate n (⟨o, hi, lo, cl⟩ : Candle)).map Candle.close).drop
        (((List.replicate n (⟨o, hi, lo, cl⟩ : Candle)).map Candle.close).length - 10) =
        List.replicate 10 cl := by
      simp only [List.map_replicate, List.length_replicate, List.drop_replicate]
      congr 1
      omega
    rw [hd, listMin_replicate _ _ (by norm_num)]
    exact hcl
  rw [detect_patterns_eq_spec _ short (by simpa using hn) hmn,
    detect_patterns_spec_uniform _ _ _ _ _ _ hn, div_self hcl]
  norm_num

/-- On a uniform series whose closes are all zero, `detect_patterns` raises:
the flag detector computes `max(recent)/min(recent)` with `min(recent) = 0`
(ZeroDivisionError in the source), modelled as `none`. -/
lemma detect_patterns_uniform_zero_close (n : Nat) (o hi lo : ℚ) (short : String)
    (hn : 21 ≤ n) :
    detect_patterns (List.replicate n ⟨o, hi, lo, 0⟩) short = none := by
  have e1 : pyGet (List.replicate n (0:ℚ)) (-1) = some 0 := by
    rw [pyGet_neg_one _ (by simp; omega), List.length_replicate,
      getD_replicate _ _ _ (by omega)]
  have e2 : pyMax (List.replicate n hi) = some hi := by
    rw [pyMax_of_ne_nil _ (by simp; omega), listMax_replicate _ _ (by omega)]
  have e3 : pyMin (List.replicate n lo) = some lo := by
    rw [pyMin_of_ne_nil _ (by simp; omega), listMin_replicate _ _ (by omega)]
  have e4 : pyGet (List.replicate n hi) ((n / 2 : Nat) : Int) = some hi := by
    rw [pyGet_nat _ _ (by simp; omega), getD_replicate _ _ _ (by omega)]
  have e5 : pyGet (List.replicate n hi) (((n / 2 : Nat) : Int) - 2) = some hi := by
    rw [show ((n / 2 : Nat) : Int) - 2 = ((n / 2 - 2 : Nat) : Int) by omega,
      pyGet_nat _ _ (by simp; omega), getD_replicate _ _ _ (by omega)]
  have e7 : headShoulders short (List.replicate n hi) ((n / 2 : Nat) : Int) hi hi = some [] := by
    simp [headShoulders]
  have e9 : cupHandle short (List.replicate n (0:ℚ)) 0 = some [] := by
    simp [cupHandle, listSum_replicate]
  have e10 : pyGet (List.replicate n hi) (-1) = some hi := by
    rw [pyGet_neg_one _ (by simp; omega), List.length_replicate,
      getD_replicate _ _ _ (by omega)]
  have e11 : pyGet (List.replicate n hi) (-2) = some hi := by
    rw [pyGet_neg_two _ (by simp; omega), List.length_replicate,
      getD_replicate _ _ _ (by omega)]
  have e12 : pyGet (List.replicate n lo) (-1) = some lo := by
    rw [pyGet_neg_one _ (by simp; omega), List.length_replicate,
      getD_replicate _ _ _ (by omega)]
  have e13 : pyGet (List.replicate n lo) (-2) = some lo := by
    rw [pyGet_neg_two _ (by simp; omega), List.length_replicate,
      getD_replicate _ _ _ (by omega)]
  have eflag : flagSignals short (List.replicate n (0:ℚ)) 0 = none := by
    have h10 : n - (n - 10) = 10 := by omega
    have hmx : pyMax (List.replicate 10 (0:ℚ)) = some 0 := by
      rw [pyMax_of_ne_nil _ (by simp), listMax_replicate _ _ (by norm_num)]
    have hmn : pyMin (List.replicate 10 (0:ℚ)) = some 0 := by
      rw [pyMin_of_ne_nil _ (by simp), listMin_replicate _ _ (by norm_num)]
    simp only [flagSignals, List.length_replicate, List.drop_replicate, h10]
    rw [hmx, hmn]
    simp
  simp only [detect_patterns, List.map_replicate, List.length_replicate,
    e1, e2, e3, e4, e5, e7, e9, e10, e11, e12, e13, eflag,
    Option.some_bind, Option.map_none']

/-- The last ten closes of a uniform series with nonzero close have nonzero
minimum. -/
lemma uniform_last10_min_ne (n : Nat) (o hi lo cl : ℚ) (hn : 10 ≤ n) (hcl : cl ≠ 0) :
    listMin (((List.replicate n (⟨o, hi, lo, cl⟩ : Candle)).map Candle.close).drop
      (((List.replicate n (⟨o, hi, lo, cl⟩ : Candle)).map Candle.close).length - 10)) ≠ 0 := by
  have hd : ((List.replicate n (⟨o, hi, lo, cl⟩ : Candle)).map Candle.close).drop
      (((List.replicate n (⟨o, hi, lo, cl⟩ : Candle)).map Candle.close).length - 10) =
      List.replicate 10 cl := by
    simp only [List.map_replicate, List.length_replicate, List.drop_replicate]
    congr 1
    omega
  rw [hd, listMin_replicate _ _ (by norm_num)]
  exact hcl

/-- C1 (amended): for candle series of length at least 21 whose last ten
closes have nonzero minimum, `detect_patterns` returns exactly the signals of
the spec's detector table, with the table's directions, scores and labels, in
the table's fixed order. -/
theorem detect_patterns_matches_spec_table (candles : List Candle) (short : String)
    (hL : 21 ≤ candles.length)
    (hmn : listMin ((candles.map Candle.close).drop
      ((candles.map Candle.close).length - 10)) ≠ 0) :
    detect_patterns candles short = some (detect_patterns_spec candles short) :=
  detect_patterns_eq_spec candles short hL hmn

/-- C1 (counterexample): a series of sufficient length on which
`detect_patterns` does not return the spec table's signals: with all closes
zero the flag detector's ratio divides by zero and the call errors, while the
table still selects signals. -/
theorem detect_patterns_spec_table_fails_at_zero_close :
    detect_patterns (List.replicate 21 ⟨0, 100, 50, 0⟩) "BTC" ≠
      some (detect_patterns_spec (List.replicate 21 ⟨0, 100, 50, 0⟩) "BTC") := by
  rw [detect_patterns_uniform_zero_close 21 0 100 50 "BTC" (by norm_num)]
  simp

/-- Witness: the amended C1 at a concrete input. -/
theorem detect_patterns_matches_spec_table_witness :
    detect_patterns (List.replicate 21 ⟨1, 2, 1, 1⟩) "BTC" =
      some (detect_patterns_spec (List.replicate 21 ⟨1, 2, 1, 1⟩) "BTC") :=
  detect_patterns_matches_spec_table _ _ (by simp)
    (uniform_last10_min_ne 21 1 2 1 1 (by norm_num) (by norm_num))

/-- C4 (amended): for candle series of length at least 22 whose last ten
closes have nonzero minimum, `detect_patterns` raises no error (no
out-of-bounds access, no division by zero) and is deterministic: equal
inputs give equal outputs. -/
theorem detect_patterns_total_and_deterministic (candles : List Candle) (short : String)
    (hL : 22 ≤ candles.length)
    (hmn : listMin ((candles.map Candle.close).drop
      ((candles.map Candle.close).length - 10)) ≠ 0) :
    (detect_patterns candles short).isSome = true ∧
    ∀ candles2 short2, candles2 = candles → short2 = short →
      detect_patterns candles2 short2 = detect_patterns candles short := by
  refine ⟨?_, ?_⟩
  · rw [detect_patterns_eq_spec candles short (by omega) hmn]
    rfl
  · intro candles2 short2 hc hs
    rw [hc, hs]

/-- C4 (counterexample): a length-22 series on which `detect_patterns`
errors (ZeroDivisionError on `max(recent)/min(recent)` with all closes 0),
refuting totality from the length bound alone. -/
theorem detect_patterns_error_at_length_22 :
    detect_patterns (List.replicate 22 ⟨0, 1, 1, 0⟩) "BTC" = none :=
  detect_patterns_uniform_zero_close 22 0 1 1 "BTC" (by norm_num)

/-- Witness: the amended C4 at a concrete input. -/
theorem detect_patterns_total_and_deterministic_witness :
    (detect_patterns (List.replicate 22 ⟨1, 2, 1, 1⟩) "XRP").isSome = true :=
  (detect_patterns_total_and_deterministic _ _ (by simp)
    (uniform_last10_min_ne 22 1 2 1 1 (by norm_num) (by norm_num))).1

/-- C7: a concrete series of sufficient length on which `detect_patterns`
emits both the bearish Double Top and the bullish Double Bottom signal: the
two threshold conditions are simultaneously satisfiable. -/
theorem detect_patterns_double_top_and_bottom_coexist :
    (Direction.bearish, (3:ℚ)/4, "BTC" ++ ": Double Top") ∈
      (detect_patterns (List.replicate 22 ⟨0, 100, 50, 80⟩) "BTC").getD [] ∧
    (Direction.bullish, (3:ℚ)/4, "BTC" ++ ": Double Bottom") ∈
      (detect_patterns (List.replicate 22 ⟨0, 100, 50, 80⟩) "BTC").getD [] := by
  rw [detect_patterns_uniform 22 0 100 50 80 "BTC" (by norm_num) (by norm_num)]
  norm_num

/-- C9: length at least 21 with nonzero minimum among the last ten closes
suffices for `detect_patterns` to run without any error. -/
theorem detect_patterns_no_error_at_length_21 (candles : List Candle) (short : String)
    (hL : 21 ≤ candles.length)
    (hmn : listMin ((candles.map Candle.close).drop
      ((candles.map Candle.close).length - 10)) ≠ 0) :
    (detect_patterns candles short).isSome = true := by
  rw [detect_patterns_eq_spec candles short hL hmn]
  rfl

/-- Witness: C9 at a concrete length-21 input. -/
theorem detect_patterns_no_error_at_length_21_witness :
    (detect_patterns (List.replicate 21 ⟨1, 3, 1, 2⟩) "ETH").isSome = true :=
  detect_patterns_no_error_at_length_21 _ _ (by simp)
    (uniform_last10_min_ne 21 1 3 1 2 (by norm_num) (by norm_num))

/-- Witness: C10 at a concrete input on which `detect_patterns` succeeds. -/
theorem detect_patterns_bounded_and_exclusive_witness :
    ((detect_patterns (List.replicate 21 ⟨1, 1, 1, 1⟩) "SOL").getD []).length ≤ 6 := by
  have h : detect_patterns (List.replicate 21 ⟨1, 1, 1, 1⟩) "SOL" =
      some [(Direction.bearish, 13/20, "SOL" ++ ": Bear Flag")] := by
    rw [detect_patterns_uniform 21 1 1 1 1 "SOL" (by norm_num) (by norm_num)]
    norm_num
  have hc := detect_patterns_bounded_and_exclusive _ _ _ h
  rw [h]
  exact hc.2.2.1

/-- Key of the `last_signals` silence map: `(symbol short code, label)`. -/
abbrev SilenceKey := String × String

/-- State of the `last_signals` dictionary: an insertion-ordered association
list from keys to last-approval wall-clock times (seconds, as `ℚ`). -/
abbrev SilenceState := List (SilenceKey × ℚ)

/-- Dictionary lookup `last_signals[key]` / `key in last_signals`. -/
def lookupSig : SilenceState → SilenceKey → Option ℚ
  | [], _ => none
  | (k, t) :: rest, key => if k = key then some t else lookupSig rest key

/-- Dictionary write `last_signals[key] = v`: overwrite in place, append if
absent (Python dict insertion-order semantics). -/
def setSig : SilenceState → SilenceKey → ℚ → SilenceState
  | [], key, v => [(key, v)]
  | (k, t) :: rest, key, v =>
      if k = key then (key, v) :: rest else (k, t) :: setSig rest key v

/-- The source's deduplication window: `SILENCE_SECONDS = 6 * 60 * 60`. -/
def SILENCE_SECONDS : ℚ := 6 * 60 * 60

/-- `should_post` (lines 169-175 of `src/main.py`) with the cooldown window
as a parameter: returns the decision and the successor state. -/
def should_post_gen (c : ℚ) (st : SilenceState) (symbol desc : String) (now : ℚ) :
    Bool × SilenceState :=
  let key := (symbol, desc)
  match lookupSig st key with
  | some t => if now - t < c then (false, st) else (true, setSig st key now)
  | none => (true, setSig st key now)

/-- Shallow embedding of `should_post(symbol, desc)`, reading the global
`last_signals` as explicit state and `time.time()` as the argument `now`. -/
def should_post (st : SilenceState) (symbol desc : String) (now : ℚ) :
    Bool × SilenceState :=
  should_post_gen SILENCE_SECONDS st symbol desc now

/-- Looking up the key just written. -/
lemma lookupSig_setSig_self (st : SilenceState) (k : SilenceKey) (v : ℚ) :
    lookupSig (setSig st k v) k = some v := by
  induction st with
  | nil => simp [setSig, lookupSig]
  | cons p rest ih =>
      obtain ⟨k1, t1⟩ := p
      by_cases h : k1 = k
      · simp [setSig, h, lookupSig]
      · simp [setSig, h, lookupSig, ih]

/-- Writing one key leaves every other key's entry unchanged. -/
lemma lookupSig_setSig_other (st : SilenceState) (k k' : SilenceKey) (v : ℚ)
    (h : k' ≠ k) : lookupSig (setSig st k v) k' = lookupSig st k' := by
  induction st with
  | nil => simp [setSig, lookupSig, Ne.symm h]
  | cons p rest ih =>
      obtain ⟨k1, t1⟩ := p
      by_cases h1 : k1 = k
      · subst h1
        simp only [setSig, if_pos rfl]
        have hne : k1 ≠ k' := fun hh => h hh.symm
        simp [lookupSig, hne]
      · simp only [setSig, if_neg h1]
        by_cases h2 : k1 = k'
        · simp [lookupSig, h2]
        · simp [lookupSig, h2, ih]

/-- A suppressed call leaves the state untouched. -/
lemma should_post_gen_false (c : ℚ) (st : SilenceState) (symbol desc : String) (now : ℚ)
    (h : (should_post_gen c st symbol desc now).1 = false) :
    (should_post_gen c st symbol desc now).2 = st := by
  simp only [should_post_gen] at h ⊢
  cases hl : lookupSig st (symbol, desc) with
  | none => rw [hl] at h; simp at h
  | some t =>
      rw [hl] at h
      by_cases hc : now - t < c
      · simp [hc]
      · simp [hc] at h

/-- An approving call writes exactly the current time at its key. -/
lemma should_post_gen_true (c : ℚ) (st : SilenceState) (symbol desc : String) (now : ℚ)
    (h : (should_post_gen c st symbol desc now).1 = true) :
    (should_post_gen c st symbol desc now).2 = setSig st (symbol, desc) now := by
  simp only [should_post_gen] at h ⊢
  cases hl : lookupSig st (symbol, desc) with
  | none => rfl
  | some t =>
      rw [hl] at h
      by_cases hc : now - t < c
      · simp [hc] at h
      · simp [hc]

/-- C2: `should_post` suppresses exactly the calls whose key carries a
timestamp less than `SILENCE_SECONDS` old, without touching the state;
otherwise it approves and records the current time; and (for any positive
cooldown) of two same-key calls in immediate succession, an approved first
call makes the second suppressed. -/
theorem should_post_spec :
    (∀ (st : SilenceState) (symbol desc : String) (now t : ℚ),
       lookupSig st (symbol, desc) = some t → now - t < SILENCE_SECONDS →
       should_post st symbol desc now = (false, st)) ∧
    (∀ (st : SilenceState) (symbol desc : String) (now : ℚ),
       (∀ t, lookupSig st (symbol, desc) = some t → SILENCE_SECONDS ≤ now - t) →
       (should_post st symbol desc now).1 = true ∧
       lookupSig (should_post st symbol desc now).2 (symbol, desc) = some now) ∧
    (∀ (c : ℚ) (st : SilenceState) (symbol desc : String) (now : ℚ),
       0 < c → (should_post_gen c st symbol desc now).1 = true →
       (should_post_gen c (should_post_gen c st symbol desc now).2 symbol desc now).1 = false) := by
  refine ⟨?_, ?_, ?_⟩
  · intro st symbol desc now t hl hc
    simp [should_post, should_post_gen, hl, hc]
  · intro st symbol desc now h
    cases hl : lookupSig st (symbol, desc) with
    | none => simp [should_post, should_post_gen, hl, lookupSig_setSig_self]
    | some t =>
        have := h t hl
        simp [should_post, should_post_gen, hl, not_lt.mpr this, lookupSig_setSig_self]
  · intro c st symbol desc now hc h
    rw [should_post_gen_true c st symbol desc now h]
    simp [should_post_gen, lookupSig_setSig_self, sub_self, hc, not_lt.mpr (le_of_lt hc)]

/-- Witness: C2 at concrete states. -/
theorem should_post_spec_witness :
    should_post [(("BTC", "BTC: Double Top"), 0)] "BTC" "BTC: Double Top" 100 =
      (false, [(("BTC", "BTC: Double Top"), 0)]) :=
  should_post_spec.1 _ "BTC" "BTC: Double Top" 100 0 (by simp [lookupSig])
    (by norm_num [SILENCE_SECONDS])

/-- C6: the silence map never loses a key: a suppressing call changes
nothing, an approving call rewrites only its own key, and every present key
stays present. -/
theorem should_post_frame :
    (∀ (st : SilenceState) (symbol desc : String) (now : ℚ),
       (should_post st symbol desc now).1 = false →
       (should_post st symbol desc now).2 = st) ∧
    (∀ (st : SilenceState) (symbol desc : String) (now : ℚ),
       (should_post st symbol desc now).1 = true →
       lookupSig (should_post st symbol desc now).2 (symbol, desc) = some now ∧
       ∀ k, k ≠ (symbol, desc) →
         lookupSig (should_post st symbol desc now).2 k = lookupSig st k) ∧
    (∀ (st : SilenceState) (symbol desc : String) (now : ℚ) (k : SilenceKey),
       (lookupSig st k).isSome = true →
       (lookupSig (should_post st symbol desc now).2 k).isSome = true) := by
  refine ⟨?_, ?_, ?_⟩
  · intro st symbol desc now h
    exact should_post_gen_false _ _ _ _ _ h
  · intro st symbol desc now h
    rw [should_post, should_post_gen_true _ _ _ _ _ h]
    exact ⟨lookupSig_setSig_self st _ now, fun k hk => lookupSig_setSig_other st _ k now hk⟩
  · intro st symbol desc now k hk
    cases hb : (should_post st symbol desc now).1 with
    | false => rw [should_post, should_post_gen_false _ _ _ _ _ hb]; exact hk
    | true =>
        rw [should_post, should_post_gen_true _ _ _ _ _ hb]
        by_cases he : k = (symbol, desc)
        · subst he; rw [lookupSig_setSig_self]; rfl
        · rw [lookupSig_setSig_other st _ k now he]; exact hk

/-- Witness: C6's approval case at a concrete state. -/
theorem should_post_frame_witness :
    lookupSig (should_post [] "ETH" "ETH: Cup & Handle" 5).2 ("ETH", "ETH: Cup & Handle") =
      some 5 :=
  (should_post_frame.2.1 [] "ETH" "ETH: Cup & Handle" 5 rfl).1

/-- One `should_post` consultation in a cycle: key `(sym, desc)` checked at
wall-clock time `t`. -/
structure CallEvent where
  sym : String
  desc : String
  t : ℚ

/-- State transition of one consultation. -/
def silenceStep (st : SilenceState) (e : CallEvent) : SilenceState :=
  (should_post st e.sym e.desc e.t).2

/-- Folding a sequence of consultations through the silence map. -/
def runSilence (st : SilenceState) (evs : List CallEvent) : SilenceState :=
  evs.foldl silenceStep st

/-- Decision of one consultation against a given state. -/
def approvedCall (st : SilenceState) (e : CallEvent) : Bool :=
  (should_post st e.sym e.desc e.t).1

/-- A consultation either leaves a key's entry alone or stamps it with the
consultation's own time. -/
lemma silenceStep_lookup (st : SilenceState) (e : CallEvent) (k : SilenceKey) :
    lookupSig (silenceStep st e) k = lookupSig st k ∨
    lookupSig (silenceStep st e) k = some e.t := by
  unfold silenceStep
  cases hb : (should_post st e.sym e.desc e.t).1 with
  | false => rw [should_post, should_post_gen_false _ _ _ _ _ hb]; left; rfl
  | true =>
      rw [should_post, should_post_gen_true _ _ _ _ _ hb]
      by_cases hk : k = (e.sym, e.desc)
      · subst hk; right; exact lookupSig_setSig_self st _ _
      · left; exact lookupSig_setSig_other st _ k _ hk

/-- Running consultations whose times are sorted and not earlier than a
key's stored timestamp can only move that timestamp forward. -/
lemma lookupSig_runSilence_ge (evs : List CallEvent) (st : SilenceState)
    (k : SilenceKey) (T : ℚ)
    (hl : lookupSig st k = some T)
    (ht : ∀ e ∈ evs, T ≤ e.t)
    (hsort : List.Pairwise (fun a b : CallEvent => a.t ≤ b.t) evs) :
    ∃ T2, lookupSig (runSilence st evs) k = some T2 ∧ T ≤ T2 := by
  induction evs generalizing st T with
  | nil => exact ⟨T, hl, le_refl T⟩
  | cons e rest ih =>
      obtain ⟨hhead, hrest⟩ := List.pairwise_cons.mp hsort
      have hrun : runSilence st (e :: rest) = runSilence (silenceStep st e) rest := rfl
      rw [hrun]
      rcases silenceStep_lookup st e k with hstep | hstep
      · exact ih (silenceStep st e) T (hstep.trans hl)
          (fun e2 he2 => ht e2 (List.mem_cons_of_mem e he2)) hrest
      · obtain ⟨T2, h2, hge⟩ := ih (silenceStep st e) e.t hstep hhead hrest
        exact ⟨T2, h2, le_trans (ht e (List.mem_cons_self e rest)) hge⟩

/-- C5: over any time-sorted sequence of consultations from any starting
state, two approved consultations with the same key are at least one
cooldown window (`SILENCE_SECONDS`) apart. -/
theorem silence_filter_cooldown_separation (st0 : SilenceState)
    (pre mid post : List CallEvent) (e1 e2 : CallEvent)
    (hkey : (e1.sym, e1.desc) = (e2.sym, e2.desc))
    (hsort : List.Pairwise (fun a b : CallEvent => a.t ≤ b.t)
      (pre ++ e1 :: (mid ++ e2 :: post)))
    (h1 : approvedCall (runSilence st0 pre) e1 = true)
    (h2 : approvedCall (runSilence st0 (pre ++ e1 :: mid)) e2 = true) :
    SILENCE_SECONDS ≤ e2.t - e1.t := by
  obtain ⟨hpre, hrest, hcross⟩ := List.pairwise_append.mp hsort
  obtain ⟨hhead, hrest2⟩ := List.pairwise_cons.mp hrest
  obtain ⟨hmidp, hpostp, hcross2⟩ := List.pairwise_append.mp hrest2
  have hafter : lookupSig (silenceStep (runSilence st0 pre) e1) (e1.sym, e1.desc) =
      some e1.t := by
    unfold silenceStep
    rw [should_post, should_post_gen_true _ _ _ _ _ h1]
    exact lookupSig_setSig_self _ _ _
  have hmid_t : ∀ e ∈ mid, e1.t ≤ e.t :=
    fun e he => hhead e (List.mem_append_left _ he)
  obtain ⟨T2, hT2, hge⟩ :=
    lookupSig_runSilence_ge mid (silenceStep (runSilence st0 pre) e1)
      (e1.sym, e1.desc) e1.t hafter hmid_t hmidp
  have hrun : runSilence st0 (pre ++ e1 :: mid) =
      runSilence (silenceStep (runSilence st0 pre) e1) mid := by
    simp [runSilence, List.foldl_append]
  rw [hrun] at h2
  rw [hkey] at hT2
  unfold approvedCall at h2
  simp only [should_post, should_post_gen, hT2] at h2
  by_cases hc : e2.t - T2 < SILENCE_SECONDS
  · simp [hc] at h2
  · have h3 : SILENCE_SECONDS ≤ e2.t - T2 := not_lt.mp hc
    linarith

/-- Witness: C5 with an approval at time 0 and a second approval exactly one
cooldown window later. -/
theorem silence_filter_cooldown_separation_witness :
    SILENCE_SECONDS ≤ (21600 : ℚ) - 0 :=
  silence_filter_cooldown_separation [] [] [] []
    ⟨"BTC", "BTC: Bear Flag", 0⟩ ⟨"BTC", "BTC: Bear Flag", 21600⟩ rfl
    (by simp [List.pairwise_cons])
    rfl
    (by norm_num [approvedCall, runSilence, silenceStep, should_post, should_post_gen,
      lookupSig, setSig, SILENCE_SECONDS])

/-- An entry of the ranking dictionaries built by `collect_top_patterns`:
`{"symbol": short, "score": score, "desc": desc}`. -/
structure Entry where
  symbol : String
  score : ℚ
  desc : String
deriving DecidableEq

/-- Insert an entry into a score-descending list, before the first element
of not-larger score.  Inserting the earlier-discovered element before
equal-score elements realizes the stability of Python's `sorted`. -/
def insertDesc (e : Entry) : List Entry → List Entry
  | [] => [e]
  | x :: xs => if e.score < x.score then x :: insertDesc e xs else e :: x :: xs

/-- Stable descending-by-score sort, modelling
`sorted(entries, key=lambda x: x["score"], reverse=True)`. -/
def sortDesc : List Entry → List Entry
  | [] => []
  | x :: xs => insertDesc x (sortDesc xs)

/-- The bullish group of a flat `(short, signal)` list, in discovery order
(the source appends to `bull` while iterating). -/
def bullEntries (signals : List (String × Signal)) : List Entry :=
  signals.filterMap fun p =>
    match p with
    | (short, (Direction.bullish, score, desc)) => some ⟨short, score, desc⟩
    | (_, (Direction.bearish, _, _)) => none

/-- The bearish group, in discovery order. -/
def bearEntries (signals : List (String × Signal)) : List Entry :=
  signals.filterMap fun p =>
    match p with
    | (short, (Direction.bearish, score, desc)) => some ⟨short, score, desc⟩
    | (_, (Direction.bullish, _, _)) => none

/-- Shallow embedding of `collect_top_patterns` (lines 155-167 of
`src/main.py`), parametrized by the flat signal list the scanner collected
across symbols: partition by direction in discovery order, sort each group
by score descending (stable), truncate each to five. -/
def collect_top_patterns (signals : List (String × Signal)) : List Entry × List Entry :=
  ((sortDesc (bullEntries signals)).take 5, (sortDesc (bearEntries signals)).take 5)

/-- Membership in an insertion. -/
lemma mem_insertDesc (e a : Entry) (l : List Entry) :
    a ∈ insertDesc e l ↔ a = e ∨ a ∈ l := by
  induction l with
  | nil => simp [insertDesc]
  | cons x xs ih =>
      by_cases h : e.score < x.score <;> simp [insertDesc, h, ih] <;> tauto

/-- Inserting preserves descending sortedness. -/
lemma insertDesc_sorted (e : Entry) (l : List Entry)
    (h : List.Pairwise (fun a b : Entry => b.score ≤ a.score) l) :
    List.Pairwise (fun a b : Entry => b.score ≤ a.score) (insertDesc e l) := by
  induction l with
  | nil => simp [insertDesc]
  | cons x xs ih =>
      obtain ⟨hx, hxs⟩ := List.pairwise_cons.mp h
      by_cases hc : e.score < x.score
      · rw [insertDesc, if_pos hc]
        refine List.pairwise_cons.mpr ⟨?_, ih hxs⟩
        intro a ha
        rcases (mem_insertDesc e a xs).mp ha with rfl | ha
        · exact le_of_lt hc
        · exact hx a ha
      · rw [insertDesc, if_neg hc]
        refine List.pairwise_cons.mpr ⟨?_, h⟩
        intro a ha
        rcases List.mem_cons.mp ha with rfl | ha
        · exact not_lt.mp hc
        · exact le_trans (hx a ha) (not_lt.mp hc)

/-- The sort output is descending by score. -/
lemma sortDesc_sorted (l : List Entry) :
    List.Pairwise (fun a b : Entry => b.score ≤ a.score) (sortDesc l) := by
  induction l with
  | nil => simp [sortDesc]
  | cons x xs ih => exact insertDesc_sorted x (sortDesc xs) ih

/-- Insertion is a permutation of consing. -/
lemma insertDesc_perm (e : Entry) (l : List Entry) :
    List.Perm (insertDesc e l) (e :: l) := by
  induction l with
  | nil => simp [insertDesc]
  | cons x xs ih =>
      by_cases h : e.score < x.score
      · rw [insertDesc, if_pos h]
        exact ((ih.cons x).trans (List.Perm.swap e x xs))
      · rw [insertDesc, if_neg h]

/-- The sort permutes its input. -/
lemma sortDesc_perm (l : List Entry) : List.Perm (sortDesc l) l := by
  induction l with
  | nil => simp [sortDesc]
  | cons x xs ih => exact (insertDesc_perm x (sortDesc xs)).trans (ih.cons x)

/-- Filtering one score class through an insertion: the inserted entry goes
to the front of its own class and other classes are untouched. -/
lemma filter_insertDesc (e : Entry) (l : List Entry) (q : ℚ) :
    (insertDesc e l).filter (fun x => x.score = q) =
      if e.score = q then e :: l.filter (fun x => x.score = q)
      else l.filter (fun x => x.score = q) := by
  induction l with
  | nil => by_cases h : e.score = q <;> simp [insertDesc, h]
  | cons x xs ih =>
      by_cases hc : e.score < x.score
      · rw [insertDesc, if_pos hc]
        by_cases he : e.score = q
        · have hx : ¬ (x.score = q) := by
            intro hh
            rw [he, hh] at hc
            exact lt_irrefl q hc
          simp [List.filter_cons, hx, ih, he]
        · by_cases hx : x.score = q <;> simp [List.filter_cons, hx, ih, he]
      · rw [insertDesc, if_neg hc]
        by_cases he : e.score = q <;> by_cases hx : x.score = q <;>
          simp [List.filter_cons, he, hx]

/-- Stability of the sort: each score class keeps its discovery order. -/
lemma sortDesc_filter (l : List Entry) (q : ℚ) :
    (sortDesc l).filter (fun x => x.score = q) = l.filter (fun x => x.score = q) := by
  induction l with
  | nil => rfl
  | cons x xs ih =>
      rw [sortDesc, filter_insertDesc]
      by_cases h : x.score = q <;> simp [List.filter_cons, h, ih]

/-- Filtering a prefix (here: a truncation) yields a prefix of the filter. -/
lemma filter_take_front (l : List Entry) (n : Nat) (p : Entry → Bool) :
    (l.take n).filter p <+: l.filter p := by
  conv_rhs => rw [← List.take_append_drop n l]
  rw [List.filter_append]
  exact ⟨_, rfl⟩

/-- C3: the ranker partitions by direction in discovery order, sorts each
group by score descending with ties kept in discovery order, and truncates
each group to five; on seven bullish entries with distinct scores it returns
exactly the top five in descending order. -/
theorem collect_top_patterns_spec :
    (∀ signals : List (String × Signal),
       (collect_top_patterns signals).1.length ≤ 5 ∧
       (collect_top_patterns signals).2.length ≤ 5) ∧
    (∀ signals : List (String × Signal),
       List.Pairwise (fun a b : Entry => b.score ≤ a.score) (collect_top_patterns signals).1 ∧
       List.Pairwise (fun a b : Entry => b.score ≤ a.score) (collect_top_patterns signals).2) ∧
    (∀ (signals : List (String × Signal)) (e : Entry),
       (e ∈ (collect_top_patterns signals).1 → e ∈ bullEntries signals) ∧
       (e ∈ (collect_top_patterns signals).2 → e ∈ bearEntries signals)) ∧
    (∀ (signals : List (String × Signal)) (q : ℚ),
       (collect_top_patterns signals).1.filter (fun x => x.score = q) <+:
         (bullEntries signals).filter (fun x => x.score = q) ∧
       (collect_top_patterns signals).2.filter (fun x => x.score = q) <+:
         (bearEntries signals).filter (fun x => x.score = q)) ∧
    collect_top_patterns
      [("BTC", (Direction.bullish, 3, "b3")), ("ETH", (Direction.bullish, 1, "b1")),
       ("XRP", (Direction.bullish, 7, "b7")), ("SOL", (Direction.bullish, 5, "b5")),
       ("BTC", (Direction.bullish, 2, "b2")), ("ETH", (Direction.bullish, 6, "b6")),
       ("XRP", (Direction.bullish, 4, "b4"))] =
      ([⟨"XRP", 7, "b7"⟩, ⟨"ETH", 6, "b6"⟩, ⟨"SOL", 5, "b5"⟩, ⟨"XRP", 4, "b4"⟩,
        ⟨"BTC", 3, "b3"⟩], []) := by
  refine ⟨?_, ?_, ?_, ?_, ?_⟩
  · intro signals
    constructor <;>
      · simp only [collect_top_patterns, List.length_take]
        omega
  · intro signals
    exact ⟨List.Pairwise.sublist (List.take_sublist 5 _) (sortDesc_sorted _),
      List.Pairwise.sublist (List.take_sublist 5 _) (sortDesc_sorted _)⟩
  · intro signals e
    constructor <;> intro he
    · exact (sortDesc_perm (bullEntries signals)).mem_iff.mp
        ((List.take_sublist 5 _).subset he)
    · exact (sortDesc_perm (bearEntries signals)).mem_iff.mp
        ((List.take_sublist 5 _).subset he)
  · intro signals q
    constructor
    · have h1 := filter_take_front (sortDesc (bullEntries signals)) 5
        (fun x => x.score = q)
      rw [sortDesc_filter] at h1
      exact h1
    · have h1 := filter_take_front (sortDesc (bearEntries signals)) 5
        (fun x => x.score = q)
      rw [sortDesc_filter] at h1
      exact h1
  · norm_num [collect_top_patterns, bullEntries, bearEntries, sortDesc, insertDesc]

/-- Witness: C3's bound and partition at a concrete two-signal list. -/
theorem collect_top_patterns_spec_witness :
    (collect_top_patterns [("BTC", (Direction.bullish, 3/4, "BTC: Double Bottom")),
      ("ETH", (Direction.bearish, 17/20, "ETH: Head & Shoulders"))]).1.length ≤ 5 :=
  (collect_top_patterns_spec.1 _).1

/-- A message handed to the Telegram collaborator during one cycle:
`send_telegram_text` or `send_telegram_photo`. -/
inductive TgMsg where
  | text (msg : String)
  | photo (path : String) (caption : String)
deriving DecidableEq

/-- Whether a message is a chart/photo notification. -/
def isPhotoMsg : TgMsg → Bool
  | TgMsg.text _ => false
  | TgMsg.photo _ _ => true

/-- Python `"%.2f"`-style rendering of a nonnegative score. -/
def format2f (q : ℚ) : String :=
  let m := (Int.floor (q * 100 + 1/2)).toNat
  toString (m / 100) ++ "." ++ (if m % 100 < 10 then "0" else "") ++ toString (m % 100)

/-- One summary line: `• {symbol} → {desc} (score {score:.2f})\n`. -/
def summaryLine (e : Entry) : String :=
  "• " ++ e.symbol ++ " → " ++ e.desc ++ " (score " ++ format2f e.score ++ ")\n"

/-- The aggregate text summary of lines 188-196 of `src/main.py`. -/
def buildSummary (bull bear : List Entry) : String :=
  let s1 := "📊 Top 2H Pattern Signals\n\n"
  let s2 := if bull.isEmpty then s1
    else s1 ++ "🔥 Bullish:\n" ++ String.join (bull.map summaryLine)
  if bear.isEmpty then s2
  else s2 ++ "\n❄️ Bearish:\n" ++ String.join (bear.map summaryLine)

/-- Python `sub in s` on strings. -/
def strContains (s sub : String) : Bool :=
  decide (sub.toList <:+: s.toList)

/-- The chart caption of line 212. -/
def captionFor (desc : String) (score : ℚ) : String :=
  (if strContains desc.toLower "bull" then "🔥" else "❄️") ++ " " ++ desc ++
    " (score " ++ format2f score ++ ")"

/-- The chart artifact path of line 209 (`int(time.time())` truncates; the
scheduler clock is nonnegative, where truncation and floor agree). -/
def chartFile (symbol : String) (now : ℚ) : String :=
  symbol ++ "_" ++ toString (Int.floor now) ++ ".png"

/-- Shallow embedding of the cycle body `run_once_and_report` (lines 180-214
of `src/main.py`) downstream of the ranker: given the selected bullish and
bearish entries, the silence state and the clock, it returns the dispatched
messages in order and the final silence state.  Chart rendering and file
removal are external effects with no observable message, so only the photo
dispatch is recorded. -/
def run_once_and_report (bull bear : List Entry) (st : SilenceState) (now : ℚ) :
    List TgMsg × SilenceState :=
  let all_signals := bull ++ bear
  if all_signals.isEmpty then
    ([TgMsg.text "⚠️ No strong patterns detected this cycle."], st)
  else
    let init : List TgMsg × SilenceState := ([TgMsg.text (buildSummary bull bear)], st)
    all_signals.foldl (fun acc sig =>
      match should_post acc.2 sig.symbol sig.desc now with
      | (true, st2) =>
          (acc.1 ++ [TgMsg.photo (chartFile sig.symbol now) (captionFor sig.desc sig.score)],
           st2)
      | (false, st2) => (acc.1, st2)) init

/-- C8: an empty selection sends exactly one text notification (the
"no strong patterns" message) and no photo, and leaves the silence state
unchanged. -/
theorem run_once_empty_sends_single_text (st : SilenceState) (now : ℚ) :
    run_once_and_report [] [] st now =
      ([TgMsg.text "⚠️ No strong patterns detected this cycle."], st) ∧
    ((run_once_and_report [] [] st now).1.filter isPhotoMsg).length = 0 ∧
    ((run_once_and_report [] [] st now).1.filter (fun m => !(isPhotoMsg m))).length = 1 :=
  ⟨rfl, rfl, rfl⟩
